import Mathlib

/-!
Shallow embedding of the core of `bot.js` (chat-automation agent):
identity normalization, the access registry (owner/sudo/ban lists),
the session readiness state machine, the inbound message dispatcher,
and the per-chat game scheduler.  Strings are modelled as `List Char`,
JS `Map`s and objects as association lists, JS `Set`s as
insertion-ordered duplicate-free lists.
-/

namespace ClientBot

/-- Identities (JIDs) and chat ids are strings, modelled as char lists. -/
abbrev Jid := List Char

/-- Whitespace recognized by `String.prototype.trim` (restricted to the
ASCII whitespace characters that can occur in the identities at hand). -/
def isWsChar (c : Char) : Bool :=
  c = ' ' || c = '\t' || c = '\n' || c = '\r'

/-- JS `s.trim()`: strip leading and trailing whitespace. -/
def trimStr (l : List Char) : List Char :=
  ((l.dropWhile isWsChar).reverse.dropWhile isWsChar).reverse

/-- Character is not the `@` separator (used for `indexOf("@")` / slicing). -/
def notAt (c : Char) : Bool := c ≠ '@'

/-- Character is not the `:` device-suffix separator (`split(":")[0]`). -/
def notColon (c : Char) : Bool := c ≠ ':'

/-- `normalizeJid` from bot.js: `if (!jid) return jid;` then trim, find the
first `@`; if absent return the part before the first `:`; otherwise strip a
`:suffix` from the local part only and reassemble `local@domain`. -/
def normalizeJid (jid : Jid) : Jid :=
  if jid = [] then jid
  else
    let s := trimStr jid
    if '@' ∈ s then
      ((s.takeWhile notAt).takeWhile notColon) ++ '@' :: (s.dropWhile notAt).tail
    else
      s.takeWhile notColon

/-- JS `Set.prototype.add` on an insertion-ordered duplicate-free list. -/
def setAdd (s : List Jid) (x : Jid) : List Jid :=
  if x ∈ s then s else s ++ [x]

/-- `Array.from(new Set(arr.map(normalizeJid).filter(Boolean)))`:
normalize, drop empties, dedupe keeping first occurrences. -/
def normalizeArray (arr : List Jid) : List Jid :=
  ((arr.map normalizeJid).filter (fun x => x ≠ [])).foldl
    (fun acc a => if a ∈ acc then acc else acc ++ [a]) []

/-- Startup sudo list: the stored list is normalized and the normalized
configured owner is prepended when absent (`sudoList.unshift(...)`). -/
def startupSudoList (owner : Jid) (stored : List Jid) : List Jid :=
  let sl := normalizeArray stored
  if normalizeJid owner ∈ sl then sl else normalizeJid owner :: sl

/-- `jidFromNumber` from bot.js: keep digits and `+`, strip a leading `+`,
rewrite a leading `0` of an 11-digit local number to `234`, and append
`@s.whatsapp.net` when no `@` is present.  `none` models the early
`return null` on an empty argument. -/
def jidFromNumber (num : List Char) : Option Jid :=
  if num = [] then none
  else
    let digits := num.filter (fun c => c.isDigit || c = '+')
    let n1 := if digits.headD ' ' = '+' then digits.tail else digits
    let n2 := if n1.length = 11 ∧ n1.headD ' ' = '0' then '2' :: '3' :: '4' :: n1.tail else n1
    some (if '@' ∈ n2 then n2 else n2 ++ ("@s.whatsapp.net".toList))

/-- The `.setsudo` handler's mutation: append the converted number unless its
normalization is already present (comparison over the normalized list). -/
def setsudoOp (sl : List Jid) (arg : List Char) : List Jid :=
  match jidFromNumber arg with
  | none => sl
  | some num => if normalizeJid num ∈ sl.map normalizeJid then sl else sl ++ [num]

/-- The `.delsudo` handler's mutation:
`sudoList = sudoList.filter((x) => normalizeJid(x) !== normalizeJid(num))`. -/
def delsudoOp (sl : List Jid) (arg : List Char) : List Jid :=
  match jidFromNumber arg with
  | none => sl
  | some num => sl.filter (fun x => normalizeJid x ≠ normalizeJid num)

/-- `isOwner`: normalized comparison against the configured owner. -/
def isOwnerB (owner jid : Jid) : Bool := normalizeJid jid = normalizeJid owner

/-- `isSudo`: owner, or member of the normalized sudo list. -/
def isSudoB (owner : Jid) (sudoL : List Jid) (jid : Jid) : Bool :=
  isOwnerB owner jid || normalizeJid jid ∈ sudoL.map normalizeJid

/-- `isBanned`: member of the normalized banned list. -/
def isBannedB (bannedL : List Jid) (jid : Jid) : Bool :=
  normalizeJid jid ∈ bannedL.map normalizeJid

/-! ## Session readiness state machine (connection.update handler) -/

/-- Events affecting the `botReady` flag: a `startBot` invocation, a
`connection === "open"` update, and a `connection === "close"` update. -/
inductive ConnEvent
  | started
  | opened
  | closed
deriving DecidableEq

/-- The process state relevant to the readiness notification: the `botReady`
flag and how many readiness notifications have been sent so far. -/
structure SessionState where
  botReady : Bool
  notifyCount : Nat
deriving DecidableEq

/-- Initial process state: `botReady = false`, nothing sent. -/
def initSession : SessionState := { botReady := false, notifyCount := 0 }

/-- One event step: `startBot` resets `botReady`; an `open` update sends the
readiness notification iff `botReady` is false and then sets it; a `close`
update resets `botReady` (line `botReady = false;` in the close branch). -/
def connStep (st : SessionState) (e : ConnEvent) : SessionState :=
  match e with
  | .started => { st with botReady := false }
  | .opened =>
      if st.botReady then st
      else { botReady := true, notifyCount := st.notifyCount + 1 }
  | .closed => { st with botReady := false }

/-- Run a trace of connection events from process start. -/
def runConn (evs : List ConnEvent) : SessionState := evs.foldl connStep initSession

/-! ## Game scheduler -/

/-- `Game.status`: `"waiting" | "running" | "finished"`. -/
inductive GStatus
  | waiting
  | running
  | finished
deriving DecidableEq

/-- One participant record: `{name, score, active, joinedAt}`. -/
structure Participant where
  name : List Char
  score : Int
  active : Bool
  joinedAt : Nat
deriving DecidableEq

/-- `currentRoundCtx`: `{acceptingAnswers, correctSet}`. -/
structure RoundCtx where
  acceptingAnswers : Bool
  correctSet : List Jid
deriving DecidableEq

/-- A per-chat game record, as stored in `games[groupJid]`. -/
structure Game where
  owner : Jid
  name : List Char
  rounds : Nat
  timePerRound : Nat
  participants : List (Jid × Participant)
  status : GStatus
  currentRound : Nat
  currentRoundCtx : Option RoundCtx
deriving DecidableEq

/-- Association-list lookup (JS object property access by key). -/
def lookupKey {α : Type} (k : Jid) : List (Jid × α) → Option α
  | [] => none
  | e :: t => if e.1 = k then some e.2 else lookupKey k t

/-- Association-list update/insert (JS `obj[key] = v`). -/
def gamesSet (gs : List (Jid × Game)) (k : Jid) (v : Game) : List (Jid × Game) :=
  if gs.any (fun e => e.1 = k) then gs.map (fun e => if e.1 = k then (k, v) else e)
  else gs ++ [(k, v)]

/-- The fresh game built by `.game create`. -/
def freshGame (authorJid : Jid) (gname : List Char) (rounds timePerRound : Nat) : Game :=
  { owner := authorJid, name := gname, rounds := rounds, timePerRound := timePerRound,
    participants := [], status := .waiting, currentRound := 0, currentRoundCtx := none }

/-- Replies of the `.game create` handler. -/
inductive CreateReply
  | notOwner
  | notGroup
  | created
deriving DecidableEq

/-- The `.game create <name> <rounds> <timeSec>` handler: owner-only, group
only, then `games[remoteJid] = g` unconditionally (no check of any prior
record for the chat). -/
def gameCreateHandler (cfgOwner : Jid) (games : List (Jid × Game)) (chat authorJid : Jid)
    (isGroup : Bool) (gname : List Char) (rounds timePerRound : Nat) :
    List (Jid × Game) × CreateReply :=
  if isOwnerB cfgOwner authorJid = false then (games, .notOwner)
  else if isGroup = false then (games, .notGroup)
  else (gamesSet games chat (freshGame authorJid gname rounds timePerRound), .created)

/-- Replies of the `.game join` handler. -/
inductive JoinReply
  | noGame
  | alreadyStarted
  | joined
  | alreadyJoined
deriving DecidableEq

/-- The `.game join` handler: only while `waiting`; a second join by the same
participant is a no-op with a distinct acknowledgment. -/
def gameJoin (g? : Option Game) (authorJid : Jid) (profileName : Option (List Char))
    (now : Nat) : Option Game × JoinReply :=
  match g? with
  | none => (none, .noGame)
  | some g =>
    if g.status ≠ .waiting then (some g, .alreadyStarted)
    else
      match lookupKey authorJid g.participants with
      | some _ => (some g, .alreadyJoined)
      | none =>
        (some ({ g with participants := g.participants ++
          [(authorJid, { name := profileName.getD (authorJid.takeWhile notAt),
                         score := 0, active := true, joinedAt := now })] }), .joined)

/-- Replies of the `.game start` handler. -/
inductive StartReply
  | noGame
  | alreadyStarted
  | noParticipants
  | started
deriving DecidableEq

/-- The `.game start` handler (state part): requires `waiting` with at least
one participant; sets `status = "running"`, `currentRound = 0`, and installs
`currentRoundCtx = {acceptingAnswers: true, correctSet: new Set()}` before
spawning the round loop. -/
def gameStart (g? : Option Game) : Option Game × StartReply :=
  match g? with
  | none => (none, .noGame)
  | some g =>
    if g.status ≠ .waiting then (some g, .alreadyStarted)
    else if g.participants.length < 1 then (some g, .noParticipants)
    else
      let g2 : Game :=
        { g with
          status := .running,
          currentRound := 0,
          currentRoundCtx := some { acceptingAnswers := true, correctSet := [] } }
      (some g2, .started)

/-- Replies of the `.game stop` handler. -/
inductive StopReply
  | noGame
  | stopped
deriving DecidableEq

/-- The `.game stop` handler: with no check of the current status,
`g.status = "finished"`. -/
def gameStop (g? : Option Game) : Option Game × StopReply :=
  match g? with
  | none => (none, .noGame)
  | some g => (some ({ g with status := .finished }), .stopped)

/-- Award `+10` to every listed identity that is a participant
(`g.participants[jid].score += 10`). -/
def awardCorrect (ps : List (Jid × Participant)) (correct : List Jid) :
    List (Jid × Participant) :=
  correct.foldl
    (fun acc jid => acc.map (fun e => if e.1 = jid then (e.1, { e.2 with score := e.2.score + 10 }) else e))
    ps

/-- Elimination sweep from round 5 on: delete participants whose score is `<= 0`. -/
def eliminateZero (ps : List (Jid × Participant)) : List (Jid × Participant) :=
  ps.filter (fun e => ¬ (e.2.score ≤ 0))

/-- What one wake-up of the round loop did: finished the game (winner
announcement, no further round), or announced round `n` and scheduled the
next iteration (`setImmediate(runRound)`). -/
inductive RoundOutcome
  | gameFinished
  | roundRan (n : Nat)
deriving DecidableEq

/-- One iteration of the `runRound` closure: increment `currentRound`; when it
exceeds `rounds`, set `status = "finished"` and stop; otherwise announce the
round, sleep, then award points to the members of the closure-local
`correctSet` — which is created empty each round and written by no code path
(the answer intake writes to `currentRoundCtx.correctSet` instead) — run the
elimination sweep from round 5 on, and schedule the next iteration.
`status` is never read. -/
def runRoundIter (g : Game) : Game × RoundOutcome :=
  let g1 := { g with currentRound := g.currentRound + 1 }
  if g1.currentRound > g1.rounds then
    ({ g1 with status := .finished }, .gameFinished)
  else
    let localCorrect : List Jid := []
    let g2 := { g1 with participants := awardCorrect g1.participants localCorrect }
    let g3 := if g1.currentRound ≥ 5 then { g2 with participants := eliminateZero g2.participants }
              else g2
    (g3, .roundRan g1.currentRound)

/-- First whitespace-separated token (`s.split(/\s+/)[0]` of a trimmed string). -/
def firstToken (l : List Char) : List Char := l.takeWhile (fun c => isWsChar c = false)

/-- Replies of the `!s` game-answer handler. -/
inductive AnswerReply
  | ignoredNotRunning
  | ignoredEmpty
  | accepted (word : List Char)
  | rejected (word : List Char)
deriving DecidableEq

/-- The `game_answer_special` handler: a no-op unless the chat's game exists
and is `running`; installs a fresh `currentRoundCtx` when missing; on a valid
word adds the author to `currentRoundCtx.correctSet` and acknowledges,
otherwise acknowledges rejection.  `valid` is the verdict of the external
dictionary collaborator (`isValidEnglish`). -/
def gameAnswerHandler (g? : Option Game) (authorJid : Jid) (argStr : List Char)
    (valid : Bool) : Option Game × AnswerReply :=
  match g? with
  | none => (none, .ignoredNotRunning)
  | some g =>
    if g.status ≠ .running then (some g, .ignoredNotRunning)
    else if argStr = [] then (some g, .ignoredEmpty)
    else
      let word := firstToken (trimStr argStr)
      let ctx := g.currentRoundCtx.getD { acceptingAnswers := true, correctSet := [] }
      if valid then
        let ctx2 : RoundCtx := { ctx with correctSet := setAdd ctx.correctSet authorJid }
        (some ({ g with currentRoundCtx := some ctx2 }), .accepted word)
      else
        (some ({ g with currentRoundCtx := some ctx }), .rejected word)

/-- The `correctSet` of a game's current round context (empty when absent). -/
def ctxCorrect (g : Game) : List Jid :=
  (g.currentRoundCtx.getD { acceptingAnswers := true, correctSet := [] }).correctSet

/-- The score of a participant, when present. -/
def scoreOf (g : Game) (jid : Jid) : Option Int :=
  (lookupKey jid g.participants).map Participant.score

/-! ## Inbound dispatcher -/

/-- JS `s.toLowerCase()` (character-wise). -/
def toLowerStr (l : List Char) : List Char := l.map Char.toLower

/-- Token accumulator for `split(/\s+/)`. -/
def tokensAux : List Char → List Char → List (List Char)
  | [], acc => if acc = [] then [] else [acc.reverse]
  | c :: t, acc =>
    if isWsChar c then
      (if acc = [] then tokensAux t [] else acc.reverse :: tokensAux t [])
    else tokensAux t (c :: acc)

/-- JS `s.split(/\s+/)` as applied in bot.js (always to an already-trimmed
string): the whitespace-separated tokens, with `[""]` for the empty string. -/
def splitWs (l : List Char) : List (List Char) :=
  if l = [] then [[]] else tokensAux l []

/-- The persistent bot configuration fields the dispatcher reads. -/
structure Config where
  owner : Jid
  prefixStr : List Char
  modePublic : Bool
deriving DecidableEq

/-- The parts of an inbound `messages.upsert` event the dispatcher inspects. -/
structure InMsg where
  hasMessage : Bool
  remoteJid : Option Jid
  participant : Option Jid
  fromMe : Bool
  msgId : Option (List Char)
  text : List Char
deriving DecidableEq

/-- Message classification: reserved `!s ` game-answer token, prefixed
command, empty, or unprefixed chatter. -/
inductive MsgClass
  | noText
  | notCommand
  | gameAnswer (argStr : List Char)
  | command (cmd : List Char) (argStr : List Char)
deriving DecidableEq

/-- The command-parsing block: `!s ` (case-insensitive, on the trimmed text)
marks a game answer regardless of the configured command prefix; otherwise
the trimmed text must start with the prefix (default `"."`), and is split
into a lower-cased `cmd` and `argStr = args.join(" ").trim()`. -/
def classifyText (prefixCfg : List Char) (text : List Char) : MsgClass :=
  let pfx := if prefixCfg = [] then ['.'] else prefixCfg
  let isGA := ("!s ".toList).isPrefixOf (toLowerStr (trimStr text))
  if text = [] ∧ isGA = false then .noText
  else if isGA = true then .gameAnswer (trimStr ((trimStr text).drop 3))
  else if pfx.isPrefixOf (trimStr text) = false then .notCommand
  else
    let parts := splitWs (trimStr ((trimStr text).drop pfx.length))
    .command (toLowerStr (parts.headD [])) (trimStr (List.intercalate [' '] parts.tail))

/-- JS `Map.prototype.has` on the processed-messages map. -/
def hasKey (m : List (List Char × Nat)) (k : List Char) : Bool :=
  m.any (fun e => e.1 = k)

/-- The 10-minute TTL of the processed-messages cache, in milliseconds. -/
def ttlMs : Nat := 10 * 60 * 1000

/-- One run of the 60-second cleanup interval at time `now`: delete every
entry with `now - ts > 10 * 60 * 1000`. -/
def sweepProcessed (now : Nat) (m : List (List Char × Nat)) : List (List Char × Nat) :=
  m.filter (fun e => ¬ (ttlMs < now - e.2))

/-- The literal command name under which game answers are routed. -/
def gameAnswerCmd : List Char := "game_answer_special".toList

/-- Where the dispatcher stopped, or what it dispatched. -/
inductive DispatchResult
  | dropNoMessage
  | dropNoChat
  | dropSelfLoop
  | dropDuplicate
  | dropBanned
  | dropNoText
  | dropNotCommand
  | dropUnauthorized
  | dispatchGameAnswer (argStr : List Char)
  | dispatchCommand (cmd : List Char) (argStr : List Char)
deriving DecidableEq

/-- The front of the `messages.upsert` handler, in source order: reject events
without message or chat id; drop self-loops from a non-owner login; dedupe by
message id against the cache (recording fresh ids); drop banned authors;
classify the text; apply the private-mode gate (game answers exempt); route
to the game-answer intake or to the command named by `cmd`. -/
def dispatchStep (cfg : Config) (sudoL bannedL : List Jid) (loggedIn : Jid)
    (processed : List (List Char × Nat)) (now : Nat) (m : InMsg) :
    DispatchResult × List (List Char × Nat) :=
  if m.hasMessage = false then (.dropNoMessage, processed)
  else
    match m.remoteJid with
    | none => (.dropNoChat, processed)
    | some rj =>
      if m.fromMe = true ∧ loggedIn ≠ [] ∧ loggedIn ≠ normalizeJid cfg.owner then
        (.dropSelfLoop, processed)
      else
        let msgId := m.msgId.getD (rj ++ '_' :: (Nat.repr now).toList)
        if hasKey processed msgId = true then (.dropDuplicate, processed)
        else
          let processed2 := processed ++ [(msgId, now)]
          let authorJid := normalizeJid (m.participant.getD rj)
          if isBannedB bannedL authorJid = true then (.dropBanned, processed2)
          else
            match classifyText cfg.prefixStr m.text with
            | .noText => (.dropNoText, processed2)
            | .notCommand => (.dropNotCommand, processed2)
            | .gameAnswer argStr => (.dispatchGameAnswer argStr, processed2)
            | .command cmd argStr =>
              if (cfg.modePublic = true ∨ isOwnerB cfg.owner authorJid = true ∨
                  isSudoB cfg.owner sudoL authorJid = true) ∨
                  cmd = gameAnswerCmd then
                if cmd = gameAnswerCmd then
                  (.dispatchGameAnswer argStr, processed2)
                else (.dispatchCommand cmd argStr, processed2)
              else (.dropUnauthorized, processed2)

/-! ## Concrete demonstration values -/

/-- A demonstration participant identity. -/
def demoA : Jid := "111@x.net".toList

/-- A demonstration game as it stands right after `.game start` in a group
with one joined participant: running, round open, nobody scored yet. -/
def demoGame : Game :=
  { owner := "555@x.net".toList,
    name := "Quiz".toList,
    rounds := 2,
    timePerRound := 15,
    participants := [(demoA, { name := "111".toList, score := 0, active := true, joinedAt := 0 })],
    status := .running,
    currentRound := 0,
    currentRoundCtx := some { acceptingAnswers := true, correctSet := [] } }

/-! ## Lemmas about `trimStr`, `takeWhile`, `dropWhile` -/

theorem dropWhile_head_false {α : Type} (p : α → Bool) :
    ∀ (l : List α) (c : α) (t : List α), l.dropWhile p = c :: t → p c = false := by
  intro l
  induction l with
  | nil => intro c t h; simp at h
  | cons a l2 ih =>
    intro c t h
    by_cases hp : p a
    · rw [List.dropWhile_cons_of_pos hp] at h; exact ih c t h
    · rw [List.dropWhile_cons_of_neg hp] at h
      cases h
      simpa using hp

theorem mem_of_mem_takeWhile {α : Type} {p : α → Bool} {a : α} {l : List α}
    (h : a ∈ l.takeWhile p) : a ∈ l :=
  (List.takeWhile_sublist p).subset h

theorem takeWhile_all_eq {α : Type} {p : α → Bool} :
    ∀ {l : List α}, (∀ a ∈ l, p a = true) → l.takeWhile p = l := by
  intro l
  induction l with
  | nil => intro _; rfl
  | cons a t ih =>
    intro h
    rw [List.takeWhile_cons_of_pos (h a (List.mem_cons_self a t))]
    rw [ih (fun b hb => h b (List.mem_cons_of_mem a hb))]

theorem takeWhile_append_all {α : Type} {p : α → Bool} :
    ∀ {l1 : List α} (l2 : List α), (∀ a ∈ l1, p a = true) →
      (l1 ++ l2).takeWhile p = l1 ++ l2.takeWhile p := by
  intro l1
  induction l1 with
  | nil => intro l2 _; rfl
  | cons a t ih =>
    intro l2 h
    rw [List.cons_append, List.takeWhile_cons_of_pos (h a (List.mem_cons_self a t))]
    rw [ih l2 (fun b hb => h b (List.mem_cons_of_mem a hb)), List.cons_append]

theorem dropWhile_append_all {α : Type} {p : α → Bool} :
    ∀ {l1 : List α} (l2 : List α), (∀ a ∈ l1, p a = true) →
      (l1 ++ l2).dropWhile p = l2.dropWhile p := by
  intro l1
  induction l1 with
  | nil => intro l2 _; rfl
  | cons a t ih =>
    intro l2 h
    rw [List.cons_append, List.dropWhile_cons_of_pos (h a (List.mem_cons_self a t))]
    exact ih l2 (fun b hb => h b (List.mem_cons_of_mem a hb))

theorem takeWhile_head {α : Type} {p : α → Bool} :
    ∀ {l : List α} {c : α} {t : List α}, l.takeWhile p = c :: t → ∃ t2, l = c :: t2 := by
  intro l c t h
  cases l with
  | nil => simp at h
  | cons a l2 =>
    by_cases hp : p a
    · rw [List.takeWhile_cons_of_pos hp] at h
      cases h
      exact ⟨l2, rfl⟩
    · rw [List.takeWhile_cons_of_neg hp] at h
      simp at h

theorem prefixHead {α : Type} {l1 l2 : List α} {c : α} {t : List α}
    (h : l1 <+: l2) (he : l1 = c :: t) : ∃ t2, l2 = c :: t2 := by
  obtain ⟨r, hr⟩ := h
  subst he
  exact ⟨t ++ r, by rw [← hr]; simp⟩

theorem reverse_trimStr (l : List Char) :
    (trimStr l).reverse = (l.dropWhile isWsChar).reverse.dropWhile isWsChar := by
  simp [trimStr]

theorem trimStr_isPrefixOfDrop (l : List Char) : trimStr l <+: l.dropWhile isWsChar := by
  have h1 : (l.dropWhile isWsChar).reverse.dropWhile isWsChar <:+ (l.dropWhile isWsChar).reverse :=
    List.dropWhile_suffix _
  have h2 := List.reverse_suffix.mp (by simpa using h1 :
      (((l.dropWhile isWsChar).reverse.dropWhile isWsChar).reverse).reverse <:+
        ((l.dropWhile isWsChar)).reverse)
  simpa [trimStr] using h2

theorem trimStr_head_false {l : List Char} {c : Char} {t : List Char}
    (h : trimStr l = c :: t) : isWsChar c = false := by
  obtain ⟨r, hr⟩ := trimStr_isPrefixOfDrop l
  rw [h] at hr
  exact dropWhile_head_false _ l c (t ++ r) (by rw [← hr]; simp)

theorem trimStr_reverse_head_false {l : List Char} {c : Char} {t : List Char}
    (h : (trimStr l).reverse = c :: t) : isWsChar c = false := by
  rw [reverse_trimStr] at h
  exact dropWhile_head_false _ _ c t h

theorem mem_trimStr {l : List Char} {a : Char} (h : a ∈ trimStr l) : a ∈ l := by
  obtain ⟨r, hr⟩ := trimStr_isPrefixOfDrop l
  have h2 : a ∈ l.dropWhile isWsChar := by
    rw [← hr]; exact List.mem_append_left _ h
  exact (List.dropWhile_suffix _).subset h2

theorem trimStr_eq_self {y : List Char}
    (hhead : ∀ c t, y = c :: t → isWsChar c = false)
    (hlast : ∀ c t, y.reverse = c :: t → isWsChar c = false) :
    trimStr y = y := by
  cases y with
  | nil => rfl
  | cons a t =>
    have h1 : isWsChar a = false := hhead a t rfl
    have hdw : (a :: t).dropWhile isWsChar = a :: t :=
      List.dropWhile_cons_of_neg (by simp [h1])
    show (((a :: t).dropWhile isWsChar).reverse.dropWhile isWsChar).reverse = a :: t
    rw [hdw]
    cases hy2 : (a :: t).reverse with
    | nil => simp at hy2
    | cons c r =>
      have h2 : isWsChar c = false := hlast c r hy2
      have h3 : List.dropWhile isWsChar (c :: r) = c :: r :=
        List.dropWhile_cons_of_neg (by simp [h2])
      rw [h3, ← hy2, List.reverse_reverse]



theorem normalizeJid_eq_of_mem (jid : Jid) (h1 : jid ≠ []) (h2 : '@' ∈ trimStr jid) :
    normalizeJid jid =
      (((trimStr jid).takeWhile notAt).takeWhile notColon) ++
        '@' :: ((trimStr jid).dropWhile notAt).tail := by
  simp only [normalizeJid]
  rw [if_neg h1, if_pos h2]

theorem normalizeJid_eq_of_notMem (jid : Jid) (h1 : jid ≠ []) (h2 : '@' ∉ trimStr jid) :
    normalizeJid jid = (trimStr jid).takeWhile notColon := by
  simp only [normalizeJid]
  rw [if_neg h1, if_neg h2]

theorem normalizeJid_at_case (s loc dom : List Char)
    (hloc : loc = (s.takeWhile notAt).takeWhile notColon)
    (hdom : dom = (s.dropWhile notAt).tail)
    (hhead : ∀ c t, s = c :: t → isWsChar c = false)
    (hlast : ∀ c t, s.reverse = c :: t → isWsChar c = false) :
    normalizeJid (loc ++ '@' :: dom) = trimStr (loc ++ '@' :: dom) := by
  have hlocAt : ∀ c ∈ loc, notAt c = true := by
    intro c hc
    rw [hloc] at hc
    exact List.mem_takeWhile_imp (mem_of_mem_takeWhile hc)
  have hlocColon : ∀ c ∈ loc, notColon c = true := by
    intro c hc
    rw [hloc] at hc
    exact List.mem_takeWhile_imp hc
  have hheadY : ∀ c t, (loc ++ '@' :: dom) = c :: t → isWsChar c = false := by
    intro c t h
    cases hl : loc with
    | nil =>
      rw [hl, List.nil_append] at h
      cases h
      decide
    | cons a l0 =>
      rw [hl, List.cons_append] at h
      cases h
      rw [hloc] at hl
      obtain ⟨t1, ht1⟩ := takeWhile_head hl
      obtain ⟨t2, ht2⟩ := takeWhile_head ht1
      exact hhead c t2 ht2
  have hlastY : ∀ c t, (loc ++ '@' :: dom).reverse = c :: t → isWsChar c = false := by
    intro c t h
    rw [List.reverse_append, List.reverse_cons] at h
    cases hd : dom.reverse with
    | nil =>
      rw [hd, List.nil_append, List.singleton_append] at h
      cases h
      decide
    | cons d r =>
      rw [hd, List.append_assoc, List.cons_append] at h
      cases h
      have hds : dom <:+ s := by
        rw [hdom]
        exact (List.tail_suffix _).trans (List.dropWhile_suffix _)
      have hpr : dom.reverse <+: s.reverse := List.reverse_suffix.mp (by simpa using hds)
      obtain ⟨t2, ht2⟩ := prefixHead hpr hd
      exact hlast c t2 ht2
  have hyne : (loc ++ '@' :: dom) ≠ [] := by simp
  have hstab : trimStr (loc ++ '@' :: dom) = loc ++ '@' :: dom :=
    trimStr_eq_self hheadY hlastY
  have hat : '@' ∈ trimStr (loc ++ '@' :: dom) := by rw [hstab]; simp
  rw [normalizeJid_eq_of_mem _ hyne hat, hstab]
  have h1 : (loc ++ '@' :: dom).takeWhile notAt = loc := by
    rw [takeWhile_append_all _ hlocAt]
    rw [List.takeWhile_cons_of_neg (by decide), List.append_nil]
  have h2 : loc.takeWhile notColon = loc := takeWhile_all_eq hlocColon
  have h3 : (loc ++ '@' :: dom).dropWhile notAt = '@' :: dom := by
    rw [dropWhile_append_all _ hlocAt]
    exact List.dropWhile_cons_of_neg (by decide)
  rw [h1, h2, h3]
  rfl

theorem normalizeJid_noat_case (s : List Char) (hat : '@' ∉ s) :
    normalizeJid (s.takeWhile notColon) = trimStr (s.takeWhile notColon) := by
  by_cases hy : s.takeWhile notColon = []
  · rw [hy]; rfl
  · have h2 : '@' ∉ trimStr (s.takeWhile notColon) := by
      intro hmem
      exact hat (mem_of_mem_takeWhile (mem_trimStr hmem))
    rw [normalizeJid_eq_of_notMem _ hy h2]
    exact takeWhile_all_eq (fun c hc => List.mem_takeWhile_imp (mem_trimStr hc))

/-- Claim C6 (amended): `normalizeJid` is a total function, and instead of
idempotence it satisfies `normalizeJid (normalizeJid x) = trimStr (normalizeJid x)`
for every string `x`: a second normalization only trims the trailing
whitespace that the `split(":")[0]` step of the first pass can leave behind;
in particular idempotence holds exactly when the normalized form carries no
such whitespace. -/
theorem normalizeJid_twice_eq_trim (jid : Jid) :
    normalizeJid (normalizeJid jid) = trimStr (normalizeJid jid) := by
  by_cases hnil : jid = []
  · subst hnil; rfl
  · by_cases hat : '@' ∈ trimStr jid
    · rw [normalizeJid_eq_of_mem jid hnil hat]
      exact normalizeJid_at_case (trimStr jid) _ _ rfl rfl
        (fun c t h => trimStr_head_false h) (fun c t h => trimStr_reverse_head_false h)
    · rw [normalizeJid_eq_of_notMem jid hnil hat]
      exact normalizeJid_noat_case (trimStr jid) hat

/-- Claim C6 counterexample: `normalizeJid` is not idempotent.  For the
input `"a :b"` the first pass trims, finds no `@`, and keeps the part before
the first `:`, returning `"a "` (with a trailing space); the second pass
trims that space and returns `"a"`. -/
theorem normalizeJid_not_idempotent :
    normalizeJid (normalizeJid ("a :b".toList)) ≠ normalizeJid ("a :b".toList) := by decide


/-! ## Access registry: the owner-in-sudo invariant (claim C2) -/

/-- Claim C2 counterexample: starting from the startup registry for the
default configured owner and an empty stored list, the owner-only command
`.delsudo 2348087054385` (the owner's own number) removes the normalized
owner identity from the sudo list: the `delsudo` handler filters with no
owner guard, so the claimed invariant is not preserved by every registry
mutation. -/
theorem delsudo_removes_owner :
    normalizeJid ("2348087054385@s.whatsapp.net".toList) ∉
      delsudoOp (startupSudoList ("2348087054385@s.whatsapp.net".toList) [])
        ("2348087054385".toList) := by decide

/-- Claim C2 (amended): the normalized configured owner is in the sudo list
at startup, and membership is preserved by `setsudo` and by any `delsudo`
whose target does not normalize to the owner's normalized identity; a
`delsudo` aimed at the owner's own number, however, removes the owner from
the list (only the separate `isOwner` check keeps the owner privileged). -/
theorem owner_in_sudo_invariant (owner : Jid) (stored sl : List Jid)
    (arg : List Char) (num : Jid)
    (hmem : normalizeJid owner ∈ sl)
    (hj : jidFromNumber arg = some num)
    (hne : normalizeJid num ≠ normalizeJid (normalizeJid owner)) :
    normalizeJid owner ∈ startupSudoList owner stored
    ∧ normalizeJid owner ∈ setsudoOp sl arg
    ∧ normalizeJid owner ∈ delsudoOp sl arg := by
  refine ⟨?_, ?_, ?_⟩
  · unfold startupSudoList
    by_cases h : normalizeJid owner ∈ normalizeArray stored
    · rw [if_pos h]; exact h
    · rw [if_neg h]; exact List.mem_cons_self _ _
  · have hred : setsudoOp sl arg =
        if normalizeJid num ∈ sl.map normalizeJid then sl else sl ++ [num] := by
      unfold setsudoOp; rw [hj]
    rw [hred]
    by_cases h : normalizeJid num ∈ sl.map normalizeJid
    · rw [if_pos h]; exact hmem
    · rw [if_neg h]; exact List.mem_append_left _ hmem
  · have hred : delsudoOp sl arg =
        sl.filter (fun x => normalizeJid x ≠ normalizeJid num) := by
      unfold delsudoOp; rw [hj]
    rw [hred]
    refine List.mem_filter.mpr ⟨hmem, ?_⟩
    simpa using fun hcontra => hne hcontra.symm

/-- Witness for claim C2's amended theorem at a concrete registry. -/
theorem owner_in_sudo_invariant_witness :
    normalizeJid ("555@x.net".toList) ∈ startupSudoList ("555@x.net".toList) []
    ∧ normalizeJid ("555@x.net".toList) ∈ setsudoOp [("555@x.net".toList)] ("1234".toList)
    ∧ normalizeJid ("555@x.net".toList) ∈ delsudoOp [("555@x.net".toList)] ("1234".toList) :=
  owner_in_sudo_invariant ("555@x.net".toList) [] [("555@x.net".toList)]
    ("1234".toList) ("1234@s.whatsapp.net".toList)
    (by decide) (by decide) (by decide)

/-! ## Session readiness notification (claim C3) -/

/-- Claim C3 counterexample: the readiness notification is not sent exactly
once per process lifetime.  In the trace start → open → close → start → open
(a close with a recoverable reason schedules `startBot` again, which resets
`botReady`, and the close branch itself also resets it), the second arrival
in the OPEN state passes the `!botReady` guard again and a second
notification is sent. -/
theorem ready_notification_resent :
    (runConn [.started, .opened, .closed, .started, .opened]).notifyCount = 2
    ∧ (runConn [.started, .opened, .closed, .started, .opened]).notifyCount ≠ 1 := by
  decide

/-- Claim C3 (amended): the readiness notification is sent once per
connection session, not once per process lifetime: every close → restart →
open cycle sends exactly one more notification (because `botReady` is reset
both in the close branch and in `startBot`), while a repeated open event
without an intervening close or restart sends nothing new. -/
theorem ready_notification_per_connection (evs : List ConnEvent) :
    (runConn (evs ++ [.closed, .started, .opened])).notifyCount
      = (runConn evs).notifyCount + 1
    ∧ (runConn (evs ++ [.opened, .opened])).notifyCount
      = (runConn (evs ++ [.opened])).notifyCount := by
  constructor
  · unfold runConn
    rw [List.foldl_append]
    simp [connStep]
  · unfold runConn
    rw [List.foldl_append, List.foldl_append]
    cases h : (List.foldl connStep initSession evs).botReady <;> simp [connStep, h]

/-! ## Game scheduler claims -/

/-- Claim C1 (code bug): a running game's participant submits the valid
answer `!s apple` while the round is open; the intake accepts it and adds
the participant to `currentRoundCtx.correctSet`, but the round loop's wake
leaves the participant's score at `0`: `runRound` awards 10 points only to
the members of its own closure-local `correctSet`, which no code path ever
populates, so the set written by the intake is not the set read when
awarding. -/
theorem answer_intake_scores_lost :
    (gameAnswerHandler (some demoGame) demoA ("apple".toList) true).2
        = .accepted ("apple".toList)
    ∧ Option.map ctxCorrect (gameAnswerHandler (some demoGame) demoA ("apple".toList) true).1
        = some [demoA]
    ∧ Option.map (fun g => scoreOf (runRoundIter g).1 demoA)
        (gameAnswerHandler (some demoGame) demoA ("apple".toList) true).1
        = some (some 0) := by decide

/-- Claim C4 counterexample: `.game stop` on a game that is still `waiting`
(the handler checks only that a record exists, never its status) moves it
directly to `finished`, skipping `running`. -/
theorem stop_skips_running :
    (freshGame ("555@x.net".toList) ("Quiz".toList) 2 15).status = .waiting
    ∧ Option.map Game.status
        (gameStop (some (freshGame ("555@x.net".toList) ("Quiz".toList) 2 15))).1
      = some .finished := by decide

/-- Claim C4 (amended): `create` yields `waiting`; `join` never changes the
status; `start` moves only `waiting` (with a participant) to `running`; the
round loop moves to `finished` only by exhausting the rounds; but `stop`
force-sets `finished` from any status — including `waiting` — so the
waiting → finished transition that skips `running` is reachable through the
owner's stop command. -/
theorem status_transition_discipline (a gname : List Char) (r t now : Nat)
    (pn : Option (List Char)) (g : Game) :
    (freshGame a gname r t).status = .waiting
    ∧ Option.map Game.status (gameJoin (some g) a pn now).1 = some g.status
    ∧ Option.map Game.status (gameStart (some g)).1
        = some (if g.status = .waiting ∧ g.participants ≠ [] then .running else g.status)
    ∧ (runRoundIter g).1.status
        = (if g.rounds < g.currentRound + 1 then .finished else g.status)
    ∧ Option.map Game.status (gameStop (some g)).1 = some .finished := by
  refine ⟨rfl, ?_, ?_, ?_, ?_⟩
  · dsimp only [gameJoin]
    by_cases h : g.status ≠ .waiting
    · rw [if_pos h]; rfl
    · rw [if_neg h]
      cases hl : lookupKey a g.participants <;> simp
  · dsimp only [gameStart]
    by_cases h1 : g.status ≠ .waiting
    · rw [if_pos h1]
      have : ¬ (g.status = .waiting ∧ g.participants ≠ []) := fun hc => h1 hc.1
      rw [if_neg this]; rfl
    · rw [if_neg h1]
      push_neg at h1
      by_cases h2 : g.participants.length < 1
      · rw [if_pos h2]
        have hnil : g.participants = [] := List.length_eq_zero.mp (Nat.lt_one_iff.mp h2)
        have : ¬ (g.status = .waiting ∧ g.participants ≠ []) := fun hc => hc.2 hnil
        rw [if_neg this]
        simp
      · rw [if_neg h2]
        have hne : g.participants ≠ [] := by
          intro hc
          exact h2 (by simp [hc])
        rw [if_pos ⟨h1, hne⟩]
        simp
  · unfold runRoundIter
    by_cases hc : g.rounds < g.currentRound + 1
    · simp only [gt_iff_lt]
      rw [if_pos hc, if_pos hc]
    · simp only [gt_iff_lt]
      rw [if_neg hc, if_neg hc]
      by_cases h5 : g.currentRound + 1 ≥ 5
      · rw [if_pos h5]
      · rw [if_neg h5]
  · dsimp only [gameStop]
    rfl

/-- Claim C5 counterexample: stop the demonstration running game mid-round
(status becomes `finished` while the round loop sleeps); on its next wake the
round loop does not exit: it increments `currentRound` to 1 and announces and
schedules round 1 (`roundRan 1`), contradicting the claim that it checks
`status` and stops. -/
theorem stopped_game_round_continues :
    Option.map
      (fun g => ((runRoundIter g).1.currentRound, (runRoundIter g).1.status, (runRoundIter g).2))
      (gameStop (some demoGame)).1
      = some (1, .finished, .roundRan 1) := by decide

/-- Claim C5 (amended): `stop` only flips `status`, and the round loop never
reads it: on each wake it increments `currentRound` and, unless the new value
exceeds `rounds`, announces and schedules another round with the status (in
particular `finished`) left untouched; it terminates only by round
exhaustion. -/
theorem round_loop_ignores_status (g : Game) :
    if g.rounds < g.currentRound + 1 then
      (runRoundIter g).2 = .gameFinished ∧ (runRoundIter g).1.status = .finished
    else
      (runRoundIter g).2 = .roundRan (g.currentRound + 1)
      ∧ (runRoundIter g).1.currentRound = g.currentRound + 1
      ∧ (runRoundIter g).1.status = g.status := by
  by_cases hc : g.rounds < g.currentRound + 1
  · rw [if_pos hc]
    unfold runRoundIter
    simp only [gt_iff_lt]
    rw [if_pos hc]
    exact ⟨rfl, rfl⟩
  · rw [if_neg hc]
    unfold runRoundIter
    simp only [gt_iff_lt]
    rw [if_neg hc]
    by_cases h5 : g.currentRound + 1 ≥ 5
    · rw [if_pos h5]
      exact ⟨rfl, rfl, rfl⟩
    · rw [if_neg h5]
      exact ⟨rfl, rfl, rfl⟩

/-! ## Claim C10: `.game create` replaces unconditionally -/

theorem lookupKey_gamesSet (gs : List (Jid × Game)) (k : Jid) (v : Game) :
    lookupKey k (gamesSet gs k v) = some v := by
  unfold gamesSet
  by_cases h : gs.any (fun e => e.1 = k)
  · rw [if_pos h]
    induction gs with
    | nil => simp at h
    | cons e gs ih =>
      by_cases he : e.1 = k
      · rw [List.map_cons, if_pos he]
        simp [lookupKey]
      · rw [List.map_cons, if_neg he]
        rw [List.any_cons] at h
        have h2 : gs.any (fun e => e.1 = k) := by
          rcases Bool.or_eq_true_iff.mp h with h1 | h1
          · exact absurd (by simpa using h1) he
          · exact h1
        simp only [lookupKey, if_neg he]
        exact ih h2
  · rw [if_neg h]
    induction gs with
    | nil => simp [lookupKey]
    | cons e gs ih =>
      rw [List.any_cons] at h
      have he : e.1 ≠ k := by
        intro hc
        exact h (by simp [hc])
      have h2 : ¬ gs.any (fun e => e.1 = k) = true := by
        intro hc
        exact h (by simp [hc])
      rw [List.cons_append]
      simp only [lookupKey, if_neg he]
      exact ih h2

/-- Claim C10: an owner-issued `.game create` in a group replaces the chat's
games-table entry with a fresh waiting game unconditionally: no status check
is made on the prior record (which may still be `running`), no error is
raised, and the handler emits nothing that would stop a prior round loop —
it only overwrites the table entry. -/
theorem create_replaces_unconditionally (cfgOwner author chat gname : Jid)
    (games : List (Jid × Game)) (prior : Game) (r t : Nat)
    (hown : isOwnerB cfgOwner author = true)
    (_hprior : lookupKey chat games = some prior) :
    gameCreateHandler cfgOwner games chat author true gname r t
      = (gamesSet games chat (freshGame author gname r t), .created)
    ∧ lookupKey chat (gamesSet games chat (freshGame author gname r t))
      = some (freshGame author gname r t)
    ∧ (freshGame author gname r t).status = .waiting := by
  refine ⟨?_, lookupKey_gamesSet games chat (freshGame author gname r t), rfl⟩
  unfold gameCreateHandler
  rw [hown]
  rfl

/-- Witness for claim C10 at a concrete table whose prior game is running. -/
theorem create_replaces_unconditionally_witness :
    gameCreateHandler ("555@x.net".toList) [(("g1@g.us".toList), demoGame)]
        ("g1@g.us".toList) ("555@x.net".toList) true ("Quiz2".toList) 3 10
      = (gamesSet [(("g1@g.us".toList), demoGame)] ("g1@g.us".toList)
          (freshGame ("555@x.net".toList) ("Quiz2".toList) 3 10), .created)
    ∧ lookupKey ("g1@g.us".toList)
        (gamesSet [(("g1@g.us".toList), demoGame)] ("g1@g.us".toList)
          (freshGame ("555@x.net".toList) ("Quiz2".toList) 3 10))
      = some (freshGame ("555@x.net".toList) ("Quiz2".toList) 3 10)
    ∧ (freshGame ("555@x.net".toList) ("Quiz2".toList) 3 10).status = .waiting :=
  create_replaces_unconditionally ("555@x.net".toList) ("555@x.net".toList)
    ("g1@g.us".toList) ("Quiz2".toList) [(("g1@g.us".toList), demoGame)] demoGame 3 10
    (by decide) (by decide)

/-! ## Dispatcher claims -/

/-- Claim C7: a message id already in the processed-messages cache is never
dispatched: the handler returns `dropDuplicate` — before text extraction,
command parsing, authorization, or game-answer processing — and leaves the
cache unchanged; and the 60-second sweep evicts only entries older than the
10-minute TTL, so an entry still within the TTL survives every sweep. -/
theorem duplicate_never_dispatched (cfg : Config) (sudoL bannedL : List Jid)
    (loggedIn : Jid) (processed : List (List Char × Nat)) (now : Nat) (m : InMsg)
    (rj id : List Char)
    (h1 : m.hasMessage = true)
    (h2 : m.remoteJid = some rj)
    (h3 : ¬ (m.fromMe = true ∧ loggedIn ≠ [] ∧ loggedIn ≠ normalizeJid cfg.owner))
    (h4 : m.msgId = some id)
    (h5 : hasKey processed id = true) :
    dispatchStep cfg sudoL bannedL loggedIn processed now m = (.dropDuplicate, processed)
    ∧ ∀ e ∈ processed, now - e.2 ≤ ttlMs → e ∈ sweepProcessed now processed := by
  constructor
  · simp [dispatchStep, h1, h2, h4, h5, if_neg h3]
  · intro e he hts
    refine List.mem_filter.mpr ⟨he, ?_⟩
    simp only [decide_eq_true_eq]
    omega

/-- Witness for claim C7 at a concrete duplicate message. -/
theorem duplicate_never_dispatched_witness :
    dispatchStep
        { owner := "555@x.net".toList, prefixStr := ".".toList, modePublic := true }
        [] [] [] [(("m1".toList), 5)] 10
        { hasMessage := true, remoteJid := some ("c@g.us".toList),
          participant := some ("7@x.net".toList), fromMe := false,
          msgId := some ("m1".toList), text := ".ping".toList }
      = (.dropDuplicate, [(("m1".toList), 5)])
    ∧ ∀ e ∈ [(("m1".toList), 5)], 10 - e.2 ≤ ttlMs →
        e ∈ sweepProcessed 10 [(("m1".toList), 5)] :=
  duplicate_never_dispatched
    { owner := "555@x.net".toList, prefixStr := ".".toList, modePublic := true }
    [] [] [] [(("m1".toList), 5)] 10
    { hasMessage := true, remoteJid := some ("c@g.us".toList),
      participant := some ("7@x.net".toList), fromMe := false,
      msgId := some ("m1".toList), text := ".ping".toList }
    ("c@g.us".toList) ("m1".toList)
    (by decide) (by decide) (by decide) (by decide) (by decide)

/-- Claim C9: a message whose acting identity is banned is never dispatched
to any handler — neither a command handler nor the game-answer intake: the
dispatcher stops at the ban check (after recording the message id) with
`dropBanned`, which is distinct from every dispatch result. -/
theorem banned_never_dispatched (cfg : Config) (sudoL bannedL : List Jid)
    (loggedIn : Jid) (processed : List (List Char × Nat)) (now : Nat) (m : InMsg)
    (rj id : List Char)
    (h1 : m.hasMessage = true)
    (h2 : m.remoteJid = some rj)
    (h3 : ¬ (m.fromMe = true ∧ loggedIn ≠ [] ∧ loggedIn ≠ normalizeJid cfg.owner))
    (h4 : m.msgId = some id)
    (h5 : hasKey processed id = false)
    (hban : isBannedB bannedL (normalizeJid (m.participant.getD rj)) = true) :
    (dispatchStep cfg sudoL bannedL loggedIn processed now m).1 = .dropBanned := by
  simp [dispatchStep, h1, h2, h4, h5, hban, if_neg h3]

/-- Witness for claim C9: a banned author's game answer during a running
game is still dropped at the ban check. -/
theorem banned_never_dispatched_witness :
    (dispatchStep
        { owner := "555@x.net".toList, prefixStr := ".".toList, modePublic := true }
        [] [("7@x.net".toList)] [] [] 10
        { hasMessage := true, remoteJid := some ("c@g.us".toList),
          participant := some ("7@x.net".toList), fromMe := false,
          msgId := some ("m1".toList), text := "!s apple".toList }).1
      = .dropBanned :=
  banned_never_dispatched
    { owner := "555@x.net".toList, prefixStr := ".".toList, modePublic := true }
    [] [("7@x.net".toList)] [] [] 10
    { hasMessage := true, remoteJid := some ("c@g.us".toList),
      participant := some ("7@x.net".toList), fromMe := false,
      msgId := some ("m1".toList), text := "!s apple".toList }
    ("c@g.us".toList) ("m1".toList)
    (by decide) (by decide) (by decide) (by decide) (by decide) (by decide)

/-- Members of `setAdd s x` include `x`. -/
theorem mem_setAdd (s : List Jid) (x : Jid) : x ∈ setAdd s x := by
  unfold setAdd
  by_cases h : x ∈ s
  · rw [if_pos h]; exact h
  · rw [if_neg h]; exact List.mem_append_right _ (List.mem_cons_self _ _)

/-- Claim C8: in private mode (`modePublic = false`) an ordinary prefixed
command from an identity that is neither owner nor sudo is silently dropped
(`dropUnauthorized`, before any handler), while a `!s ` game-answer token
from the same identity is dispatched to the game-answer intake, and — when
the chat's game is running and the word validates — the identity is added to
the round context's `correctSet` and acknowledged. -/
theorem private_mode_gate (cfg : Config) (sudoL bannedL : List Jid) (loggedIn : Jid)
    (processed : List (List Char × Nat)) (now : Nat) (m1 m2 : InMsg)
    (rj1 rj2 id1 id2 cmd argStr gaArg : List Char) (g : Game) (a : Jid)
    (h11 : m1.hasMessage = true)
    (h12 : m1.remoteJid = some rj1)
    (h13 : ¬ (m1.fromMe = true ∧ loggedIn ≠ [] ∧ loggedIn ≠ normalizeJid cfg.owner))
    (h14 : m1.msgId = some id1)
    (h15 : hasKey processed id1 = false)
    (h16 : isBannedB bannedL (normalizeJid (m1.participant.getD rj1)) = false)
    (ha1 : normalizeJid (m1.participant.getD rj1) = a)
    (hc : classifyText cfg.prefixStr m1.text = .command cmd argStr)
    (hcg : cmd ≠ gameAnswerCmd)
    (hm : cfg.modePublic = false)
    (ho : isOwnerB cfg.owner a = false)
    (hs : isSudoB cfg.owner sudoL a = false)
    (h21 : m2.hasMessage = true)
    (h22 : m2.remoteJid = some rj2)
    (h23 : ¬ (m2.fromMe = true ∧ loggedIn ≠ [] ∧ loggedIn ≠ normalizeJid cfg.owner))
    (h24 : m2.msgId = some id2)
    (h25 : hasKey processed id2 = false)
    (h26 : isBannedB bannedL (normalizeJid (m2.participant.getD rj2)) = false)
    (hg : classifyText cfg.prefixStr m2.text = .gameAnswer gaArg)
    (hrun : g.status = .running)
    (hne : gaArg ≠ []) :
    (dispatchStep cfg sudoL bannedL loggedIn processed now m1).1 = .dropUnauthorized
    ∧ (dispatchStep cfg sudoL bannedL loggedIn processed now m2).1
        = .dispatchGameAnswer gaArg
    ∧ (gameAnswerHandler (some g) a gaArg true).2
        = .accepted (firstToken (trimStr gaArg))
    ∧ Option.map ctxCorrect (gameAnswerHandler (some g) a gaArg true).1
        = some (setAdd (ctxCorrect g) a)
    ∧ a ∈ setAdd (ctxCorrect g) a := by
  have h16a : isBannedB bannedL a = false := by rw [← ha1]; exact h16
  refine ⟨?_, ?_, ?_, ?_, mem_setAdd _ _⟩
  · simp [dispatchStep, h11, h12, h14, h15, ha1, h16a, hc, hm, ho, hs, hcg, if_neg h13]
  · simp [dispatchStep, h21, h22, h24, h25, h26, hg, if_neg h23]
  · dsimp only [gameAnswerHandler]
    rw [if_neg (by rw [hrun]; simp), if_neg hne]
    rfl
  · dsimp only [gameAnswerHandler]
    rw [if_neg (by rw [hrun]; simp), if_neg hne]
    simp [ctxCorrect]

/-- Witness for claim C8 at a concrete private-mode registry: `.ping hi`
from the non-sudo identity is dropped silently, `!s apple` from the same
identity still reaches the game intake and scores into the round context. -/
theorem private_mode_gate_witness :
    (dispatchStep
        { owner := "555@x.net".toList, prefixStr := ".".toList, modePublic := false }
        [] [] [] [] 10
        { hasMessage := true, remoteJid := some ("c@g.us".toList),
          participant := some ("7@x.net".toList), fromMe := false,
          msgId := some ("m1".toList), text := ".ping hi".toList }).1
      = .dropUnauthorized
    ∧ (dispatchStep
        { owner := "555@x.net".toList, prefixStr := ".".toList, modePublic := false }
        [] [] [] [] 10
        { hasMessage := true, remoteJid := some ("c@g.us".toList),
          participant := some ("7@x.net".toList), fromMe := false,
          msgId := some ("m2".toList), text := "!s apple".toList }).1
      = .dispatchGameAnswer ("apple".toList)
    ∧ (gameAnswerHandler (some demoGame) ("7@x.net".toList) ("apple".toList) true).2
        = .accepted (firstToken (trimStr ("apple".toList)))
    ∧ Option.map ctxCorrect
        (gameAnswerHandler (some demoGame) ("7@x.net".toList) ("apple".toList) true).1
      = some (setAdd (ctxCorrect demoGame) ("7@x.net".toList))
    ∧ ("7@x.net".toList) ∈ setAdd (ctxCorrect demoGame) ("7@x.net".toList) :=
  private_mode_gate
    { owner := "555@x.net".toList, prefixStr := ".".toList, modePublic := false }
    [] [] [] [] 10
    { hasMessage := true, remoteJid := some ("c@g.us".toList),
      participant := some ("7@x.net".toList), fromMe := false,
      msgId := some ("m1".toList), text := ".ping hi".toList }
    { hasMessage := true, remoteJid := some ("c@g.us".toList),
      participant := some ("7@x.net".toList), fromMe := false,
      msgId := some ("m2".toList), text := "!s apple".toList }
    ("c@g.us".toList) ("c@g.us".toList) ("m1".toList) ("m2".toList)
    ("ping".toList) ("hi".toList) ("apple".toList) demoGame ("7@x.net".toList)
    (by decide) (by decide) (by decide) (by decide) (by decide) (by decide)
    (by decide) (by decide) (by decide) (by decide) (by decide) (by decide)
    (by decide) (by decide) (by decide) (by decide) (by decide) (by decide)
    (by decide) (by decide) (by decide)

end ClientBot
